import Mathlib

/-!
Verification development for the jobrefme-backend job-referral service.

The definitions below are shallow embeddings of the TypeScript source:
the in-memory `NodeCache` store, the two-phase submit/poll job cache in
`referralController.ts`, the job-id derivation, the generation cache of
`aiService.ts`, the model-fallback loop of the reference generator, and
the extraction fusion / validation logic of the HireJobs parsers.
Timestamps are modelled in milliseconds as natural numbers; cache TTLs
are given in seconds exactly as they are passed to `NodeCache`.
-/

namespace JobRefMe

/-- A job cache entry, mirroring the tagged union
`SuccessfulJobCacheEntry | FailedJobCacheEntry | ProcessingJobCacheEntry`
of `referralController.ts` (discriminated by `status` and `success`). -/
inductive JobCacheEntry where
  | processing (jobId : String) (startedAt : Nat) (userId : Option String)
  | success (jobId jobTitle companyName referralMessage : String) (timestamp : Nat)
      (userId : Option String)
  | failure (jobId errorMessage : String) (timestamp : Nat) (userId : Option String)
deriving DecidableEq

/-- A stored cache slot: the entry plus its absolute expiry time in ms,
as kept internally by `NodeCache` (`t = Date.now() + ttl * 1000`). -/
structure CacheSlot where
  entry : JobCacheEntry
  expiresAt : Nat
deriving DecidableEq

/-- The job cache store: a map from string keys to live slots. -/
def Cache : Type := String → Option CacheSlot

/-- The empty cache. -/
def emptyCache : Cache := fun _ => none

/-- `NodeCache.get`: a slot is returned unless its expiry time lies strictly
in the past (`data.t < Date.now()`). -/
def cacheGet (now : Nat) (c : Cache) (k : String) : Option JobCacheEntry :=
  match c k with
  | some slot => if slot.expiresAt < now then none else some slot.entry
  | none => none

/-- `NodeCache.set` with an explicit ttl in seconds (the `stdTTL` default of
the job cache is 3600 seconds). -/
def cacheSet (now ttlSec : Nat) (c : Cache) (k : String) (e : JobCacheEntry) : Cache :=
  fun q => if q = k then some ⟨e, now + ttlSec * 1000⟩ else c q

/-- `NodeCache.del`. -/
def cacheDel (c : Cache) (k : String) : Cache :=
  fun q => if q = k then none else c q

/-- Staleness threshold for `processing` entries (`120000` ms in
`generateReferral` and `getGeneratedReferral`). -/
def STALE_THRESHOLD_MS : Nat := 120000

/-- Default job-cache TTL in seconds (`stdTTL: 3600`). -/
def JOB_CACHE_TTL_SECONDS : Nat := 3600

/-- TTL in seconds used for failed entries
(`jobCache.set(cacheKey, errorEntry, 300)`). -/
def FAILURE_TTL_SECONDS : Nat := 300

/-- Does the entry have `status === 'completed'`? -/
def isCompleted : JobCacheEntry → Bool
  | .processing .. => false
  | .success .. => true
  | .failure .. => true

/-- An entry that does not trigger new work in `submit`: any completed entry,
or a `processing` entry no older than the staleness threshold. -/
def nonStaleLive (now : Nat) : JobCacheEntry → Bool
  | .processing _ startedAt _ => decide (now - startedAt ≤ STALE_THRESHOLD_MS)
  | .success .. => true
  | .failure .. => true

/-- The cache-key derivation of `generateReferral` in `referralController.ts`:
`userId ? user:{userId}:job:{jobId} : job:{jobId}`. -/
def cacheKeyFor (userId : Option String) (jobId : String) : String :=
  match userId with
  | some uid => "user:" ++ uid ++ ":job:" ++ jobId
  | none => "job:" ++ jobId

/-- The cache-interaction phase of `generateReferral` (`referralController.ts`,
lines 64-140): look up the key; a completed entry causes no write and no new
work; a fresh `processing` entry causes no write and no new work; a stale
`processing` entry is deleted (and no new work is started in this call);
an absent entry causes a `processing` insert and spawns the background
fetch-extract-generate task. The boolean records whether a background task
was spawned. -/
def submitStep (now : Nat) (cache : Cache) (cacheKey jobId : String)
    (userId : Option String) : Cache × Bool :=
  match cacheGet now cache cacheKey with
  | some e =>
    match e with
    | .processing _ startedAt _ =>
        if now - startedAt > STALE_THRESHOLD_MS then (cacheDel cache cacheKey, false)
        else (cache, false)
    | _ => (cache, false)
  | none =>
      (cacheSet now JOB_CACHE_TTL_SECONDS cache cacheKey
        (.processing jobId now userId), true)

/-- The successful background-task completion write
(`jobCache.set(cacheKey, successEntry)` with the default TTL). -/
def taskSuccessWrite (now : Nat) (c : Cache)
    (key jobId jobTitle companyName referralMessage : String)
    (userId : Option String) : Cache :=
  cacheSet now JOB_CACHE_TTL_SECONDS c key
    (.success jobId jobTitle companyName referralMessage now userId)

/-- The failed background-task completion write
(`jobCache.set(cacheKey, errorEntry, 300)`). -/
def taskFailureWrite (now : Nat) (c : Cache) (key jobId errorMessage : String)
    (userId : Option String) : Cache :=
  cacheSet now FAILURE_TTL_SECONDS c key (.failure jobId errorMessage now userId)

theorem cacheGet_set_self (now setAt ttl : Nat) (c : Cache) (k : String)
    (e : JobCacheEntry) (h : ¬ setAt + ttl * 1000 < now) :
    cacheGet now (cacheSet setAt ttl c k e) k = some e := by
  simp [cacheGet, cacheSet, h]

theorem cacheGet_del_self (now : Nat) (c : Cache) (k : String) :
    cacheGet now (cacheDel c k) k = none := by
  simp [cacheGet, cacheDel]

theorem submitStep_of_completed (now : Nat) (cache : Cache) (key jobId : String)
    (uid : Option String) (e : JobCacheEntry)
    (hget : cacheGet now cache key = some e) (hc : isCompleted e = true) :
    submitStep now cache key jobId uid = (cache, false) := by
  cases e with
  | processing jid sa u => simp [isCompleted] at hc
  | success a b c d t u => simp [submitStep, hget]
  | failure a b t u => simp [submitStep, hget]

theorem submitStep_of_fresh_processing (now : Nat) (cache : Cache)
    (key jobId : String) (uid u : Option String) (jid : String) (startedAt : Nat)
    (hget : cacheGet now cache key = some (.processing jid startedAt u))
    (hfresh : now - startedAt ≤ STALE_THRESHOLD_MS) :
    submitStep now cache key jobId uid = (cache, false) := by
  simp [submitStep, hget, Nat.not_lt.mpr hfresh]

theorem submitStep_of_stale_processing (now : Nat) (cache : Cache)
    (key jobId : String) (uid u : Option String) (jid : String) (startedAt : Nat)
    (hget : cacheGet now cache key = some (.processing jid startedAt u))
    (hstale : now - startedAt > STALE_THRESHOLD_MS) :
    submitStep now cache key jobId uid = (cacheDel cache key, false) := by
  simp [submitStep, hget, hstale]

theorem submitStep_of_none (now : Nat) (cache : Cache) (key jobId : String)
    (uid : Option String) (hget : cacheGet now cache key = none) :
    submitStep now cache key jobId uid =
      (cacheSet now JOB_CACHE_TTL_SECONDS cache key (.processing jobId now uid), true) := by
  simp [submitStep, hget]

theorem submitStep_spawn_iff (now : Nat) (cache : Cache) (key jobId : String)
    (uid : Option String) :
    (submitStep now cache key jobId uid).2 = true ↔ cacheGet now cache key = none := by
  constructor
  · intro h
    cases hget : cacheGet now cache key with
    | none => rfl
    | some e =>
      cases e with
      | processing jid sa u =>
        by_cases hs : now - sa > STALE_THRESHOLD_MS
        · rw [submitStep_of_stale_processing now cache key jobId uid u jid sa hget hs] at h
          simp at h
        · rw [submitStep_of_fresh_processing now cache key jobId uid u jid sa hget
            (Nat.le_of_not_lt hs)] at h
          simp at h
      | success a b c d t u =>
        rw [submitStep_of_completed now cache key jobId uid _ hget rfl] at h
        simp at h
      | failure a b t u =>
        rw [submitStep_of_completed now cache key jobId uid _ hget rfl] at h
        simp at h
  · intro h
    rw [submitStep_of_none now cache key jobId uid h]

theorem submitStep_no_write_of_nonStale (now : Nat) (cache : Cache)
    (key jobId : String) (uid : Option String) (e : JobCacheEntry)
    (hget : cacheGet now cache key = some e) (hlive : nonStaleLive now e = true) :
    submitStep now cache key jobId uid = (cache, false) := by
  cases e with
  | processing jid sa u =>
    exact submitStep_of_fresh_processing now cache key jobId uid u jid sa hget
      (by simpa [nonStaleLive] using hlive)
  | success a b c d t u => exact submitStep_of_completed now cache key jobId uid _ hget rfl
  | failure a b t u => exact submitStep_of_completed now cache key jobId uid _ hget rfl

/-- JavaScript `String.prototype.split` with a single-character separator,
on the character list of the string: `"".split(sep)` is `[""]`, separators
at the ends produce empty segments. -/
def splitChar (sep : Char) : List Char → List (List Char)
  | [] => [[]]
  | c :: rest =>
    let r := splitChar sep rest
    if c = sep then [] :: r
    else (c :: r.headD []) :: r.tail

theorem splitChar_ne_nil (sep : Char) (cs : List Char) : splitChar sep cs ≠ [] := by
  cases cs with
  | nil => simp [splitChar]
  | cons c rest =>
    simp only [splitChar]
    by_cases h : c = sep <;> simp [h]

theorem splitChar_of_not_mem (sep : Char) (cs : List Char) (h : sep ∉ cs) :
    splitChar sep cs = [cs] := by
  induction cs with
  | nil => rfl
  | cons c rest ih =>
    have hc : c ≠ sep := fun hcs => h (hcs ▸ List.mem_cons_self c rest)
    have hrest : sep ∉ rest := fun hm => h (List.mem_cons_of_mem c hm)
    simp [splitChar, hc, ih hrest]

theorem splitChar_append_sep (sep : Char) (s t : List Char) :
    splitChar sep (s ++ sep :: t) = splitChar sep s ++ splitChar sep t := by
  induction s with
  | nil => simp [splitChar]
  | cons c s ih =>
    simp only [List.cons_append, splitChar, List.append_eq]
    rw [ih]
    by_cases h : c = sep
    · simp [h]
    · cases hsp : splitChar sep s with
      | nil => exact absurd hsp (splitChar_ne_nil sep s)
      | cons x xs => simp [h, hsp]

/-- JavaScript `String.prototype.trim`: strip leading and trailing
whitespace (modelled as ASCII whitespace). -/
def jsTrim (s : String) : String :=
  String.mk (((s.data.dropWhile (fun c => c.isWhitespace)).reverse.dropWhile
    (fun c => c.isWhitespace)).reverse)

/-- JavaScript `String.prototype.toLowerCase` (modelled as ASCII
lowercasing). -/
def jsToLower (s : String) : String :=
  String.mk (s.data.map Char.toLower)

/-- JavaScript `s.slice(0, n)`: the first `n` characters of the string. -/
def jsSlice0 (n : Nat) (s : String) : String :=
  String.mk (s.data.take n)

/-- `extractJobId` of `referralController.ts`:
`url.split('/').pop() || 'unknown'`. -/
def extractJobId (url : String) : String :=
  let segs := splitChar '/' url.data
  let last := segs.getLastD []
  if last = [] then "unknown" else String.mk last

/-- The cache-key derivation of the custom-API-key controller variant
(`part_004`): `apiKey ? job:{jobId}:custom-key : job:{jobId}`, where a
present but empty API-key string is falsy in JavaScript. -/
def cacheKeyCustom (apiKey : Option String) (jobId : String) : String :=
  match apiKey with
  | some k => if k = "" then "job:" ++ jobId else "job:" ++ jobId ++ ":custom-key"
  | none => "job:" ++ jobId

/-- The cache-key derivation of the other custom-API-key controller variant
(`part_003`): `hasCustomApiKey = apiKey ? apiKey.trim().length > 0 : false`,
then `job:{jobId}` with `:custom` appended when a custom key is present. -/
def cacheKeyCustomTrim (apiKey : Option String) (jobId : String) : String :=
  let hasCustom := match apiKey with
    | some k => decide ((jsTrim k).length > 0)
    | none => false
  "job:" ++ jobId ++ (if hasCustom then ":custom" else "")

/-- Does `pat` occur at the head of `cs` (case-sensitive)? -/
def headMatchLit : List Char → List Char → Bool
  | [], _ => true
  | _ :: _, [] => false
  | p :: ps, c :: cs => (p == c) && headMatchLit ps cs

/-- Does `pat` occur at the head of `cs`, comparing case-insensitively
(the `i` regex flag, modelled with ASCII lowercasing)? -/
def headMatchCI : List Char → List Char → Bool
  | [], _ => true
  | _ :: _, [] => false
  | p :: ps, c :: cs => (p.toLower == c.toLower) && headMatchCI ps cs

theorem headMatchLit_length_le (pat cs : List Char)
    (h : headMatchLit pat cs = true) : pat.length ≤ cs.length := by
  induction pat generalizing cs with
  | nil => simp
  | cons p ps ih =>
    cases cs with
    | nil => simp [headMatchLit] at h
    | cons c cs =>
      simp only [headMatchLit, Bool.and_eq_true] at h
      simpa [Nat.succ_le_succ_iff] using ih cs h.2

/-- Fuel-driven worker for `jsSplitOn`. -/
def splitOnListAux (pat : List Char) : Nat → List Char → List (List Char)
  | _, [] => [[]]
  | 0, cs => [cs]
  | fuel + 1, c :: rest =>
    if headMatchLit pat (c :: rest) then
      [] :: splitOnListAux pat fuel ((c :: rest).drop pat.length)
    else
      let r := splitOnListAux pat fuel rest
      (c :: r.headD []) :: r.tail

/-- JavaScript `String.prototype.split` with a non-empty multi-character
separator. -/
def jsSplitOn (sep : String) (s : String) : List String :=
  if sep.data = [] then [s]
  else (splitOnListAux sep.data s.data.length s.data).map String.mk

/-- Fuel-driven worker for `replaceAllLit`; the fuel starts at the input
length, which suffices because every step consumes at least one character
when the pattern is non-empty. -/
def replaceAllLitAux (pat : List Char) : Nat → List Char → List Char
  | _, [] => []
  | 0, cs => cs
  | fuel + 1, c :: rest =>
    if headMatchLit pat (c :: rest) then
      replaceAllLitAux pat fuel ((c :: rest).drop pat.length)
    else c :: replaceAllLitAux pat fuel rest

/-- JavaScript `text.replace(/pat/g, '')` for a literal pattern: scan left
to right, removing non-overlapping matches without rescanning the removed
region. An empty pattern leaves the text unchanged. -/
def replaceAllLit (pat : List Char) (cs : List Char) : List Char :=
  if pat = [] then cs else replaceAllLitAux pat cs.length cs

/-- Fuel-driven worker for `replaceAllCI`. -/
def replaceAllCIAux (pat : List Char) : Nat → List Char → List Char
  | _, [] => []
  | 0, cs => cs
  | fuel + 1, c :: rest =>
    if headMatchCI pat (c :: rest) then
      replaceAllCIAux pat fuel ((c :: rest).drop pat.length)
    else c :: replaceAllCIAux pat fuel rest

/-- JavaScript `text.replace(/pat/gi, '')` for a literal pattern with the
case-insensitive flag. -/
def replaceAllCI (pat : List Char) (cs : List Char) : List Char :=
  if pat = [] then cs else replaceAllCIAux pat cs.length cs

/-- Number of leading whitespace characters (JavaScript `\s`, modelled as
ASCII whitespace). -/
def countLeadingWS (cs : List Char) : Nat :=
  (cs.takeWhile (fun c => c.isWhitespace)).length

/-- Length of a match of `lit` followed by `\s*` followed by a literal dot
at the head of `cs`, if any (the shape of `/as advertised on\s*\./`).
The `\s*` is deterministic because a dot is not whitespace. -/
def matchLitWSDotLen (lit : List Char) (cs : List Char) : Option Nat :=
  if headMatchLit lit cs then
    let rest := cs.drop lit.length
    let w := countLeadingWS rest
    match rest.drop w with
    | '.' :: _ => some (lit.length + w + 1)
    | _ => none
  else none

/-- JavaScript `text.replace(/lit\s*\./, '')` (no `g` flag: first match
only). -/
def replaceLitWSDot (lit : List Char) : List Char → List Char
  | [] => []
  | c :: rest =>
    match matchLitWSDotLen lit (c :: rest) with
    | some n => (c :: rest).drop n
    | none => c :: replaceLitWSDot lit rest

/-- Drop a leading run of newline characters. -/
def dropLeadingNewlines : List Char → List Char
  | [] => []
  | c :: rest => if c = '\n' then dropLeadingNewlines rest else c :: rest

theorem dropLeadingNewlines_length_le (cs : List Char) :
    (dropLeadingNewlines cs).length ≤ cs.length := by
  induction cs with
  | nil => simp [dropLeadingNewlines]
  | cons c rest ih =>
    simp only [dropLeadingNewlines]
    by_cases h : c = '\n'
    · simp only [h, if_pos rfl]
      exact Nat.le_succ_of_le ih
    · simp [h]

/-- Fuel-driven worker for `collapseNewlines`. -/
def collapseNewlinesAux : Nat → List Char → List Char
  | _, [] => []
  | 0, cs => cs
  | fuel + 1, '\n' :: '\n' :: '\n' :: rest =>
      '\n' :: '\n' :: collapseNewlinesAux fuel (dropLeadingNewlines rest)
  | fuel + 1, c :: rest => c :: collapseNewlinesAux fuel rest

/-- JavaScript `text.replace(/\n\n\n+/g, '\n\n')`: each maximal run of three
or more newlines collapses to two. -/
def collapseNewlines (cs : List Char) : List Char :=
  collapseNewlinesAux cs.length cs

/-- `ToInt32` coercion of JavaScript bitwise operators (`hash & hash`
reduces a float to a signed 32-bit integer). -/
def toInt32 (n : Int) : Int :=
  let m := n % 4294967296
  if m < 2147483648 then m else m - 4294967296

/-- One step of the `hashString` loop in `aiService.ts`:
`hash = ((hash << 5) - hash) + char; hash = hash & hash`. -/
def hashStep (hash : Int) (c : Char) : Int :=
  toInt32 (toInt32 (hash * 32) - hash + (c.toNat : Int))

/-- `hashString` of `aiService.ts`: the rolling 32-bit hash over the
character codes, rendered in decimal. -/
def hashString (text : String) : String :=
  if text.length = 0 then toString (0 : Int)
  else toString (text.data.foldl hashStep 0)

/-- `generateCacheKey` of `aiService.ts`:
`user:{userId}:{title.toLowerCase().trim()}:{company.toLowerCase().trim()}:{hash}`
for an authenticated user, and the same without the user part otherwise. -/
def generateCacheKey (userId : Option String)
    (jobTitle companyName descriptionHash : String) : String :=
  match userId with
  | some uid =>
      "user:" ++ uid ++ ":" ++ jsTrim (jsToLower jobTitle) ++ ":" ++
        jsTrim (jsToLower companyName) ++ ":" ++ descriptionHash
  | none =>
      jsTrim (jsToLower jobTitle) ++ ":" ++ jsTrim (jsToLower companyName) ++ ":" ++
        descriptionHash

/-- `createPrompt` of `aiService.ts` (template-based variant). -/
def createPrompt (jobTitle companyName jobDescription template : String) : String :=
  "\nYou are tasked with creating a professional and personalized referral request message.\n\nJOB POSTING DETAILS:\n---\nCompany: "
    ++ companyName ++ "\nJob Title: " ++ jobTitle ++ "\nJob Description:\n"
    ++ jobDescription ++ "\n---\n\nTEMPLATE:\n" ++ template
    ++ "\n\nINSTRUCTIONS:\n1. Analyze the job description and identify key skills or qualifications needed for this position.\n2. Create a professionally-worded message following the provided template.\n3. Replace {jobTitle} with \""
    ++ jobTitle ++ "\", {companyName} with \"" ++ companyName
    ++ "\", and {skills} with 3 of the most relevant skills from the job description.\n4. Keep the structure and format of the template, only replacing the placeholder variables.\n5. DO NOT mention \"HireJobs\" or any job board website in your message.\n6. Keep any existing formatting and structure from the template.\n"

/-- The post-processing chain applied to the model output in
`generateReferralMessage` before caching: strip site-brand tokens and two
stock phrases, collapse excess blank lines, and trim. -/
def cleanGeneratedText (text : String) : String :=
  let s1 := replaceAllLit "HireJobs".data text.data
  let s2 := replaceAllCI "hirejobs".data s1
  let s3 := replaceLitWSDot "as advertised on".data s2
  let s4 := replaceLitWSDot "as posted on".data s3
  let s5 := replaceAllLit "I hope this email finds you well.".data s4
  let s6 := replaceAllLit "I hope this message finds you well.".data s5
  jsTrim (String.mk (collapseNewlines s6))

/-- Default TTL of the generation message cache
(`CACHE_TTL`, default `3600` seconds). -/
def CACHE_TTL_SECONDS : Nat := 3600

/-- State of the generation message cache (`messageCache` in
`aiService.ts`) together with a counter of completion-capability calls. -/
structure GenState where
  msgCache : String → Option (String × Nat)
  aiCalls : Nat

/-- `messageCache.get` at a given time. -/
def msgCacheGet (now : Nat) (st : GenState) (k : String) : Option String :=
  match st.msgCache k with
  | some (v, expiresAt) => if expiresAt < now then none else some v
  | none => none

/-- `generateReferralMessage` of `aiService.ts` (template-based variant).
The text-completion capability is a function parameter `completeOracle`;
the resolved API key and the active template (both external collaborators:
account store and template store) are parameters. The hit test mirrors the
source's `if (cachedMessage)`: JavaScript truthiness, under which both an
absent entry and a cached empty string count as a miss (modelled by
collapsing the lookup with `getD ""`). On a truthy hit the cached text is
returned and the completion capability is not invoked; otherwise the
prompt is completed, the output cleaned, cached with the default TTL, and
returned. -/
def generateReferralMessage (completeOracle : String → String)
    (apiKey : Option String) (template : String) (now : Nat)
    (jobTitle companyName jobDescription : String) (userId : Option String)
    (st : GenState) : Except String String × GenState :=
  let descriptionHash := hashString (jsSlice0 1000 jobDescription)
  let cacheKey := generateCacheKey userId jobTitle companyName descriptionHash
  let cachedMessage := (msgCacheGet now st cacheKey).getD ""
  if cachedMessage ≠ "" then (.ok cachedMessage, st)
  else
    match apiKey with
    | none =>
        (.error "No Gemini API key available. Please add an API key in your account settings.",
         st)
    | some _ =>
      let prompt := createPrompt jobTitle companyName jobDescription template
      let text := completeOracle prompt
      let cleanedText := cleanGeneratedText text
      (.ok cleanedText,
       { msgCache := fun q =>
           if q = cacheKey then some (cleanedText, now + CACHE_TTL_SECONDS * 1000)
           else st.msgCache q,
         aiCalls := st.aiCalls + 1 })

/-- Does `pat` occur anywhere in `cs` (JavaScript `String.includes`)? -/
def containsSubList (pat : List Char) : List Char → Bool
  | [] => pat.isEmpty
  | c :: rest => headMatchLit pat (c :: rest) || containsSubList pat rest

/-- JavaScript `s.includes(pat)`. -/
def containsSub (s pat : String) : Bool :=
  containsSubList pat.data s.data

/-- The "model not found" test of `generateReferenceMessage`:
`errorMessage.includes('Not Found') || errorMessage.includes('not found')`. -/
def isModelNotFoundError (msg : String) : Bool :=
  containsSub msg "Not Found" || containsSub msg "not found"

/-- The prioritized model list of `generateReferenceMessage`. -/
def referenceModels : List String :=
  ["gemini-1.5-flash", "gemini-1.0-pro", "gemini-pro"]

/-- The model-fallback loop of `generateReferenceMessage`: try each model
in order; accept the first success; on a "model not found" error remember
it and continue; on any other error surface it immediately; when the list
is exhausted throw the last remembered error (or a generic message). -/
def tryModelsAux (attempt : String → Except String String) :
    List String → Option String → Except String String
  | [], lastError => .error (lastError.getD "All model attempts failed")
  | m :: rest, lastError =>
    match attempt m with
    | .ok text => .ok text
    | .error e =>
      if isModelNotFoundError e then tryModelsAux attempt rest (some e)
      else .error e

/-- The model-iteration core of `generateReferenceMessage`: the fallback
loop run over the prioritized model list with no remembered error. -/
def generateReferenceMessageCore (attempt : String → Except String String) :
    Except String String :=
  tryModelsAux attempt referenceModels none

/-- The hiring-pattern strategy (`parseHiringPattern` of the validating
parser): given the trimmed text of the first element containing
"is hiring for", split on the anchor phrase; the part before it is the
company, the part after it up to the first "|" is the title. Returns
`(company, title)`, both empty when the pattern is absent. -/
def parseHiringPatternText (hiringText : String) : String × String :=
  if hiringText ≠ "" ∧ containsSub hiringText "is hiring for" = true then
    let parts := jsSplitOn "is hiring for" hiringText
    if parts.length ≥ 2 then
      (jsTrim (parts.headD ""),
       jsTrim ((jsSplitOn "|" (parts.getD 1 "")).headD ""))
    else ("", "")
  else ("", "")

/-- Title fusion of the validating parser (`part_015`, build-title chain):
hiring pattern first, then the meta-tag candidate, then the header
candidate, then the structured-data candidate, each accepted only when
non-empty and longer than 3 characters. An absent structured-data block is
modelled by the empty string. -/
def resolveTitle (hiringTitle titleFromMeta titleFromHeader structuredTitle : String) :
    String :=
  if hiringTitle ≠ "" ∧ hiringTitle.length > 3 then hiringTitle
  else if titleFromMeta ≠ "" ∧ titleFromMeta.length > 3 then titleFromMeta
  else if titleFromHeader ≠ "" ∧ titleFromHeader.length > 3 then titleFromHeader
  else if structuredTitle ≠ "" ∧ structuredTitle.length > 3 then structuredTitle
  else ""

/-- Company fusion of the validating parser (`part_015`, build-company
chain): hiring pattern first, then the meta-tag candidate, then the DOM
candidate, then the structured-data candidate, each accepted only when
non-empty and longer than 2 characters. -/
def resolveCompany (hiringCompany companyFromMeta companyFromDOM structuredCompany : String) :
    String :=
  if hiringCompany ≠ "" ∧ hiringCompany.length > 2 then hiringCompany
  else if companyFromMeta ≠ "" ∧ companyFromMeta.length > 2 then companyFromMeta
  else if companyFromDOM ≠ "" ∧ companyFromDOM.length > 2 then companyFromDOM
  else if structuredCompany ≠ "" ∧ structuredCompany.length > 2 then structuredCompany
  else ""

/-- Anchored `^lit\s*` replacement (the shape of `/^RE:\s*/i`). -/
def stripLeadCIWS (pat : List Char) (cs : List Char) : List Char :=
  if headMatchCI pat cs then (cs.drop pat.length).dropWhile (fun c => c.isWhitespace)
  else cs

/-- JavaScript `text.replace(/pat/i, '')` for a literal pattern: remove the
first case-insensitive occurrence only. -/
def replaceFirstCI (pat : List Char) : List Char → List Char
  | [] => []
  | c :: rest =>
    if headMatchCI pat (c :: rest) then (c :: rest).drop pat.length
    else c :: replaceFirstCI pat rest

/-- Does `\s*.+$` match the whole of `t`? The star may stop anywhere in the
leading whitespace run, and `.` does not match a newline, so the regex
matches when some whitespace-prefix drop of `t` is non-empty and
newline-free. -/
def pipeTailMatch (t : List Char) : Bool :=
  (List.range (countLeadingWS t + 1)).any (fun j =>
    decide (t.drop j ≠ []) && (t.drop j).all (fun c => c != '\n'))

/-- Does `\s*\|\s*.+$` match at the head of `cs` (extending to the end of
the string)? -/
def pipeMatchAt (cs : List Char) : Bool :=
  match cs.dropWhile (fun c => c.isWhitespace) with
  | '|' :: t => pipeTailMatch t
  | _ => false

/-- JavaScript `title.replace(/\s*\|\s*.+$/i, '')`: drop everything from
the first position where the pipe-suffix pattern matches through the end. -/
def stripPipeSuffix : List Char → List Char
  | [] => []
  | c :: rest => if pipeMatchAt (c :: rest) then [] else c :: stripPipeSuffix rest

/-- The title normalization pass of the validating parser: strip the site
brand, reply/forward markers, a "job details" artifact and a trailing
pipe-delimited suffix, then trim. -/
def cleanupTitle (title : String) : String :=
  if title = "" then title
  else
    let s1 := replaceAllCI "hirejobs".data title.data
    let s2 := stripLeadCIWS "RE:".data s1
    let s3 := stripLeadCIWS "FWD:".data s2
    let s4 := replaceFirstCI "job details".data s3
    let s5 := stripPipeSuffix s4
    jsTrim (String.mk s5)

/-- Anchored `^\s*at\s+` replacement (the `i` flag is irrelevant for the
whitespace and `at` is matched case-insensitively). -/
def stripLeadAt (cs : List Char) : List Char :=
  let r := cs.dropWhile (fun c => c.isWhitespace)
  if headMatchCI "at".data r ∧ countLeadingWS (r.drop 2) > 0 then
    (r.drop 2).dropWhile (fun c => c.isWhitespace)
  else cs

/-- Does `company\s+on\s*$` match at the head of `cs`, reaching the end of
the string? -/
def companyOnMatchAt (cs : List Char) : Bool :=
  headMatchCI "company".data cs &&
    (let r := cs.drop 7
     let w := countLeadingWS r
     decide (w > 0) && headMatchCI "on".data (r.drop w) &&
       (r.drop (w + 2)).all (fun c => c.isWhitespace))

/-- JavaScript `company.replace(/company\s+on\s*$/i, '')`. -/
def stripCompanyOnSuffix : List Char → List Char
  | [] => []
  | c :: rest =>
    if companyOnMatchAt (c :: rest) then [] else c :: stripCompanyOnSuffix rest

/-- The company normalization pass of the validating parser: strip the site
brand, a leading "at", and a trailing "Company on" artifact, then trim. -/
def cleanupCompany (company : String) : String :=
  if company = "" then company
  else
    let s1 := replaceAllCI "hirejobs".data company.data
    let s2 := stripLeadAt s1
    let s3 := stripCompanyOnSuffix s2
    jsTrim (String.mk s3)

/-- The `JobData` record of `types.ts`. -/
structure JobData where
  title : String
  company : String
  description : String
deriving DecidableEq

/-- The validation tail of the validating parser (`part_015`,
`parseHireJobsHTML` lines 185-196): a fused record whose title is shorter
than 3 characters, company shorter than 2, or description shorter than 100
is rejected with an extraction error instead of being returned. -/
def validateParsedJobData (title company description : String) :
    Except String (String × String × String) :=
  if title = "" ∨ title.length < 3 then
    .error "Could not extract valid job title"
  else if company = "" ∨ company.length < 2 then
    .error "Could not extract valid company name"
  else if description = "" ∨ description.length < 100 then
    .error "Could not extract sufficient job description"
  else .ok (title, company, description)

/-- The mock job description returned by `getMockJobData` in
`crawlerService.ts`. -/
def mockJobDescription : String :=
  "We are looking for a talented Software Engineer to join our team at Tech Innovations.\n\nResponsibilities:\n• Developing and maintaining web applications using modern JavaScript frameworks\n• Writing clean, efficient, and well-documented code\n• Collaborating with cross-functional teams including designers, product managers, and other developers\n• Implementing responsive design and ensuring cross-browser compatibility\n• Participating in code reviews and mentoring junior developers\n\nRequirements:\n• 3+ years of experience in software development\n• Proficiency in JavaScript/TypeScript, HTML, CSS\n• Experience with React, Node.js, and Express\n• Familiarity with RESTful APIs and GraphQL\n• Knowledge of version control systems (Git)\n• Strong problem-solving skills and attention to detail\n• Excellent communication skills\n\nBenefits:\n• Competitive salary\n• Flexible work hours\n• Remote work options\n• Health insurance\n• Professional development opportunities\n• Collaborative and innovative work environment"

/-- The final guard section of `extractHireJobsData` in `crawlerService.ts`
(lines 269-292): instead of failing, a merged record with a missing or
too-short title, company, or description is completed with synthetic
placeholder values (`Position (ID: ...)`, `Company (ID: ...)`, a stub
description, or the mock description in development/mock mode) and returned
as a successful `JobData`. -/
def finalizeExtractedJobData (jobTitle companyName jobDescription jobId : String)
    (isDevOrMock : Bool) : JobData :=
  let jobTitle :=
    if jobTitle = "" ∨ jobTitle.length < 3 ∨ jobTitle = "Job Position" then
      "Position (ID: " ++ jobId ++ ")"
    else jobTitle
  let companyName :=
    if companyName = "" ∨ companyName.length < 2 ∨ companyName = "Company on" then
      "Company (ID: " ++ jobId ++ ")"
    else companyName
  let jobDescription :=
    if jobDescription = "" ∨ jobDescription.length < 100 then
      if isDevOrMock then mockJobDescription
      else
        "This is a job posting for " ++ jobTitle ++ " at " ++ companyName ++
          ". Unfortunately, detailed job description could not be extracted."
    else jobDescription
  { title := jobTitle, company := companyName, description := jobDescription }

/-- Events acting on the job cache: the cache phase of `generateReferral`
(`submit`), the terminal writes of its background task, the direct
completion of `processRawJobContent`, and an explicit cache clear for one
key (`clearReferralCache`). -/
inductive CacheEvent where
  | submit (key jobId : String) (uid : Option String) (t : Nat)
  | taskSuccess (key jobId title company msg : String) (uid : Option String) (t : Nat)
  | taskFailure (key jobId err : String) (uid : Option String) (t : Nat)
  | rawContent (key jobId title company msg : String) (uid : Option String) (t : Nat)
  | clearKey (key : String)

/-- System state: the job cache plus, per key, whether a background task
spawned for that key has not yet written its terminal entry. -/
structure SysState where
  cache : Cache
  pending : String → Bool

/-- The initial state: empty cache, no task in flight. -/
def initialState : SysState :=
  { cache := emptyCache, pending := fun _ => false }

/-- One step of the cache system. `submit` follows `submitStep`; a task
completion writes its terminal entry unconditionally (success with the
default TTL, failure with the short TTL) and retires the task;
`rawContent` returns the cached result on a completed-success hit and
otherwise writes a completed-success entry directly, with no `processing`
phase; `clearKey` deletes the entry. -/
def stepEvent (s : SysState) : CacheEvent → SysState
  | .submit key jobId uid t =>
    let r := submitStep t s.cache key jobId uid
    { cache := r.1,
      pending := if r.2 then (fun q => if q = key then true else s.pending q) else s.pending }
  | .taskSuccess key jobId title company msg uid t =>
    { cache := taskSuccessWrite t s.cache key jobId title company msg uid,
      pending := fun q => if q = key then false else s.pending q }
  | .taskFailure key jobId err uid t =>
    { cache := taskFailureWrite t s.cache key jobId err uid,
      pending := fun q => if q = key then false else s.pending q }
  | .rawContent key jobId title company msg uid t =>
    match cacheGet t s.cache key with
    | some (.success ..) => s
    | _ =>
      { cache := cacheSet t JOB_CACHE_TTL_SECONDS s.cache key
          (.success jobId title company msg t uid),
        pending := s.pending }
  | .clearKey key => { cache := cacheDel s.cache key, pending := s.pending }

/-- Validity guard for a single event: a task-completion write may only
occur for a key with a task in flight. -/
def eventOk (s : SysState) : CacheEvent → Prop
  | .taskSuccess key _ _ _ _ _ _ => s.pending key = true
  | .taskFailure key _ _ _ _ => s.pending key = true
  | _ => True

/-- A trace is valid from `s` when every event is permitted in the state
it fires from. -/
def ValidFrom (s : SysState) : List CacheEvent → Prop
  | [] => True
  | e :: rest => eventOk s e ∧ ValidFrom (stepEvent s e) rest

/-- Run a trace of events. -/
def runEvents (s : SysState) : List CacheEvent → SysState
  | [] => s
  | e :: rest => runEvents (stepEvent s e) rest

/-- The cache currently holds a `processing` entry (live or expired slot)
for the key. -/
def holdsProcessing (s : SysState) (key : String) : Prop :=
  ∃ slot jid sa uid, s.cache key = some slot ∧ slot.entry = .processing jid sa uid

/-- Some state reached along the trace (including the start and excluding
nothing) holds a `processing` entry for the key. -/
def EverProc (s : SysState) (key : String) : List CacheEvent → Prop
  | [] => holdsProcessing s key
  | e :: rest => holdsProcessing s key ∨ EverProc (stepEvent s e) key rest

/-- Is this event a background-task terminal write for the given key? -/
def terminalWriteFor (key : String) : CacheEvent → Prop
  | .taskSuccess k _ _ _ _ _ _ => k = key
  | .taskFailure k _ _ _ _ => k = key
  | _ => False

/-- Every background-task terminal write for `key` in the trace is preceded
by a state that held a `processing` entry for `key`; `everHeld` carries
whether such a state was already seen before the trace started. -/
def TaskWritesPreceded (key : String) (everHeld : Prop) :
    SysState → List CacheEvent → Prop
  | _, [] => True
  | s, e :: rest =>
      (terminalWriteFor key e → everHeld ∨ holdsProcessing s key)
      ∧ TaskWritesPreceded key (everHeld ∨ holdsProcessing s key) (stepEvent s e) rest

/-- A concrete cache holding one completed-success entry, used to witness
the dedup theorem. -/
def dedupWitnessCache : Cache :=
  cacheSet 0 3600 emptyCache "job:abc"
    (.success "abc" "Dev" "Acme" "msg" 0 none)

/-- C1: while the job cache holds a non-stale entry for the derived key —
a completed entry within TTL or a `processing` entry no older than the
120-second staleness threshold — `submit` spawns no background task and
performs no cache write (the cache is returned unchanged); moreover a
background task is spawned only when the key reads as absent (never
written, expired, or evicted), which is the mechanism keeping at most one
background task per key active at a time. -/
theorem submit_dedup_no_second_task (now : Nat) (cache : Cache) (key jobId : String)
    (uid : Option String) :
    (∀ e, cacheGet now cache key = some e → nonStaleLive now e = true →
        submitStep now cache key jobId uid = (cache, false))
    ∧ ((submitStep now cache key jobId uid).2 = true → cacheGet now cache key = none) := by
  refine ⟨?_, ?_⟩
  · intro e hget hlive
    exact submitStep_no_write_of_nonStale now cache key jobId uid e hget hlive
  · intro h
    exact (submitStep_spawn_iff now cache key jobId uid).mp h

/-- Witness for C1 at a concrete cache holding a completed entry. -/
theorem submit_dedup_no_second_task_witness :
    (cacheGet 1000 dedupWitnessCache "job:abc"
        = some (.success "abc" "Dev" "Acme" "msg" 0 none)
      ∧ nonStaleLive 1000 (JobCacheEntry.success "abc" "Dev" "Acme" "msg" 0 none) = true)
    ∧ submitStep 1000 dedupWitnessCache "job:abc" "abc" none = (dedupWitnessCache, false) :=
  ⟨⟨by decide, by decide⟩,
   (submit_dedup_no_second_task 1000 dedupWitnessCache "job:abc" "abc" none).1
     (.success "abc" "Dev" "Acme" "msg" 0 none) (by decide) (by decide)⟩

/-- A concrete cache holding one `processing` entry started at time 0, used
for the staleness results. -/
def staleWitnessCache : Cache :=
  cacheSet 0 3600 emptyCache "job:stale1" (.processing "stale1" 0 none)

/-- C4 counterexample: at a key holding a `processing` entry older than the
120-second staleness threshold, `submit` evicts the entry but spawns no
fresh background task in that same call — the spawned flag is `false` —
contradicting the claim that the stale entry is evicted and a fresh task is
spawned by that `submit`. -/
theorem stale_submit_no_spawn_counterexample :
    cacheGet 120001 staleWitnessCache "job:stale1" = some (.processing "stale1" 0 none)
    ∧ 120001 - 0 > STALE_THRESHOLD_MS
    ∧ (submitStep 120001 staleWitnessCache "job:stale1" "stale1" none).2 = false
    ∧ cacheGet 120001
        (submitStep 120001 staleWitnessCache "job:stale1" "stale1" none).1 "job:stale1"
        = none := by
  refine ⟨by decide, by decide, by decide, by decide⟩

/-- C4 as amended: a `submit` finding a `processing` entry older than the
staleness threshold evicts it (the key reads as absent afterwards) and
spawns nothing itself; the next `submit` on the now-absent key spawns a
fresh background task and installs a fresh `processing` entry, so a dead
background task never permanently blocks its key. -/
theorem stale_submit_evicts_then_resubmit_spawns (now : Nat) (cache : Cache)
    (key jobId jid : String) (uid u : Option String) (startedAt : Nat)
    (hget : cacheGet now cache key = some (.processing jid startedAt u))
    (hstale : now - startedAt > STALE_THRESHOLD_MS) :
    (submitStep now cache key jobId uid).2 = false
    ∧ cacheGet now (submitStep now cache key jobId uid).1 key = none
    ∧ (submitStep now (submitStep now cache key jobId uid).1 key jobId uid).2 = true
    ∧ cacheGet now
        (submitStep now (submitStep now cache key jobId uid).1 key jobId uid).1 key
        = some (.processing jobId now uid) := by
  have h1 := submitStep_of_stale_processing now cache key jobId uid u jid startedAt hget hstale
  rw [h1]
  have hdel : cacheGet now (cacheDel cache key) key = none := cacheGet_del_self now cache key
  have h2 := submitStep_of_none now (cacheDel cache key) key jobId uid hdel
  rw [h2]
  refine ⟨rfl, hdel, rfl, ?_⟩
  exact cacheGet_set_self now now JOB_CACHE_TTL_SECONDS (cacheDel cache key) key
    (.processing jobId now uid) (Nat.not_lt.mpr (Nat.le_add_right now _))

/-- Witness for the amended C4 at the concrete stale cache. -/
theorem stale_submit_evicts_then_resubmit_spawns_witness :
    (cacheGet 120001 staleWitnessCache "job:stale1" = some (.processing "stale1" 0 none)
      ∧ 120001 - 0 > STALE_THRESHOLD_MS)
    ∧ ((submitStep 120001 staleWitnessCache "job:stale1" "stale1" none).2 = false
       ∧ cacheGet 120001
           (submitStep 120001 staleWitnessCache "job:stale1" "stale1" none).1 "job:stale1"
           = none
       ∧ (submitStep 120001
           (submitStep 120001 staleWitnessCache "job:stale1" "stale1" none).1
           "job:stale1" "stale1" none).2 = true
       ∧ cacheGet 120001
           (submitStep 120001
             (submitStep 120001 staleWitnessCache "job:stale1" "stale1" none).1
             "job:stale1" "stale1" none).1 "job:stale1"
           = some (.processing "stale1" 120001 none)) :=
  ⟨⟨by decide, by decide⟩,
   stale_submit_evicts_then_resubmit_spawns 120001 staleWitnessCache "job:stale1" "stale1"
     "stale1" none none 0 (by decide) (by decide)⟩

/-- C5: a failed background task records its entry with a 300-second TTL,
shorter than the 3600-second TTL of a success entry; consequently, at any
poll time after the failure TTL but within the success TTL, a failure
entry written at `t0` reads as absent while a success entry written at the
same moment is still readable. -/
theorem failure_ttl_shorter_than_success (t0 t : Nat) (cF cS : Cache)
    (kf ks jobId err title company msg : String) (uid : Option String)
    (hlow : t0 + FAILURE_TTL_SECONDS * 1000 < t)
    (hhigh : t ≤ t0 + JOB_CACHE_TTL_SECONDS * 1000) :
    FAILURE_TTL_SECONDS < JOB_CACHE_TTL_SECONDS
    ∧ cacheGet t (taskFailureWrite t0 cF kf jobId err uid) kf = none
    ∧ cacheGet t (taskSuccessWrite t0 cS ks jobId title company msg uid) ks
        = some (.success jobId title company msg t0 uid) := by
  refine ⟨by decide, ?_, ?_⟩
  · simp [taskFailureWrite, cacheGet, cacheSet, hlow]
  · exact cacheGet_set_self t t0 JOB_CACHE_TTL_SECONDS cS ks
      (.success jobId title company msg t0 uid) (Nat.not_lt.mpr hhigh)

/-- Witness for C5 with both entries written at time 0 and polled at
t = 300001 ms, just past the failure TTL. -/
theorem failure_ttl_shorter_than_success_witness :
    (0 + FAILURE_TTL_SECONDS * 1000 < 300001 ∧ 300001 ≤ 0 + JOB_CACHE_TTL_SECONDS * 1000)
    ∧ (FAILURE_TTL_SECONDS < JOB_CACHE_TTL_SECONDS
       ∧ cacheGet 300001 (taskFailureWrite 0 emptyCache "job:f" "j1" "boom" none) "job:f"
           = none
       ∧ cacheGet 300001
           (taskSuccessWrite 0 emptyCache "job:s" "j1" "Dev" "Acme" "msg" none) "job:s"
           = some (.success "j1" "Dev" "Acme" "msg" 0 none)) :=
  ⟨⟨by decide, by decide⟩,
   failure_ttl_shorter_than_success 0 300001 emptyCache emptyCache "job:f" "job:s"
     "j1" "boom" "Dev" "Acme" "msg" none (by decide) (by decide)⟩

theorem data_cacheKeyFor_some (u jobId : String) :
    (cacheKeyFor (some u) jobId).data =
      "user:".data ++ (u.data ++ (":job:".data ++ jobId.data)) := by
  simp [cacheKeyFor, String.data_append, List.append_assoc]

/-- C7 counterexample: in the custom-API-key controller variants, the
cache key records only that a custom key is present, not which one; two
distinct non-empty custom API keys therefore resolve to the same
`JobCacheKey`, so their results collide in the cache. -/
theorem custom_api_keys_collide_counterexample :
    ("AAAA" : String) ≠ "BBBB"
    ∧ cacheKeyCustom (some "AAAA") "123" = cacheKeyCustom (some "BBBB") "123"
    ∧ cacheKeyCustomTrim (some "AAAA") "123" = cacheKeyCustomTrim (some "BBBB") "123" := by
  refine ⟨by decide, by decide, by decide⟩

/-- C7 as amended: the user-scoped key scheme of `referralController.ts`
does partition by identity — an anonymous key never equals any
authenticated user's key, and two distinct authenticated users never share
a key for the same job — and a custom-key submission never collides with
an anonymous one; but all custom API keys share the single `:custom-key`
scope, so two distinct custom credentials do collide (per the
counterexample). -/
theorem actor_scope_partitioning (u u1 u2 jobId k : String) :
    cacheKeyFor none jobId ≠ cacheKeyFor (some u) jobId
    ∧ (u1 ≠ u2 → cacheKeyFor (some u1) jobId ≠ cacheKeyFor (some u2) jobId)
    ∧ (k ≠ "" → cacheKeyCustom (some k) jobId ≠ cacheKeyCustom none jobId) := by
  refine ⟨?_, ?_, ?_⟩
  · intro h
    have hd := congrArg String.data h
    rw [data_cacheKeyFor_some] at hd
    simp only [cacheKeyFor, String.data_append] at hd
    simp only [List.cons_append, List.nil_append] at hd
    injection hd with h1 h2
    exact absurd h1 (by decide)
  · intro hne h
    have hd := congrArg String.data h
    rw [data_cacheKeyFor_some, data_cacheKeyFor_some] at hd
    have h1 : u1.data ++ (":job:".data ++ jobId.data)
        = u2.data ++ (":job:".data ++ jobId.data) := List.append_cancel_left hd
    have h2 : u1.data = u2.data := List.append_cancel_right h1
    exact hne (congrArg String.mk h2)
  · intro hk h
    have hd := congrArg String.data h
    simp only [cacheKeyCustom, if_neg hk, String.data_append] at hd
    have hlen := congrArg List.length hd
    simp [List.length_append] at hlen

/-- Witness for the amended C7 at concrete identities. -/
theorem actor_scope_partitioning_witness :
    (("u1" : String) ≠ "u2" ∧ ("gk" : String) ≠ "")
    ∧ (cacheKeyFor none "123" ≠ cacheKeyFor (some "u1") "123"
       ∧ cacheKeyFor (some "u1") "123" ≠ cacheKeyFor (some "u2") "123"
       ∧ cacheKeyCustom (some "gk") "123" ≠ cacheKeyCustom none "123") :=
  ⟨⟨by decide, by decide⟩,
   ⟨(actor_scope_partitioning "u1" "u1" "u2" "123" "gk").1,
    (actor_scope_partitioning "u1" "u1" "u2" "123" "gk").2.1 (by decide),
    (actor_scope_partitioning "u1" "u1" "u2" "123" "gk").2.2 (by decide)⟩⟩

theorem extractJobId_last_segment (s t : List Char) (hmem : '/' ∉ t) (hne : t ≠ []) :
    extractJobId (String.mk (s ++ '/' :: t)) = String.mk t := by
  simp only [extractJobId, splitChar_append_sep, splitChar_of_not_mem '/' t hmem]
  rw [List.getLastD_concat]
  simp [hne]

theorem extractJobId_trailing_slash (s : List Char) :
    extractJobId (String.mk (s ++ ['/'])) = "unknown" := by
  have h : s ++ ['/'] = s ++ '/' :: ([] : List Char) := rfl
  simp only [extractJobId, h, splitChar_append_sep]
  have hemp : splitChar '/' ([] : List Char) = [[]] := rfl
  rw [hemp, List.getLastD_concat]
  simp

theorem extractJobId_no_slash (url : String) (hmem : '/' ∉ url.data) (hne : url ≠ "") :
    extractJobId url = url := by
  have hdata : url.data ≠ [] := by
    intro h
    exact hne (congrArg String.mk h)
  simp only [extractJobId, splitChar_of_not_mem '/' url.data hmem]
  simp [List.getLastD, hdata]

/-- C10: `extractJobId` is a total function: for a URL whose last
slash-separated segment is non-empty it returns that segment (the whole URL
when no slash occurs), and for the degenerate URLs — empty string or a URL
ending in a slash — it returns the constant `"unknown"`; consequently all
degenerate URLs map to the single anonymous cache key `job:unknown` and
share one cache entry per actor scope. -/
theorem extractJobId_total_spec :
    (∀ s t : List Char, '/' ∉ t → t ≠ [] →
        extractJobId (String.mk (s ++ '/' :: t)) = String.mk t)
    ∧ (∀ s : List Char, extractJobId (String.mk (s ++ ['/'])) = "unknown")
    ∧ extractJobId "" = "unknown"
    ∧ (∀ url : String, '/' ∉ url.data → url ≠ "" → extractJobId url = url)
    ∧ (∀ s1 s2 : List Char,
        cacheKeyFor none (extractJobId (String.mk (s1 ++ ['/'])))
          = cacheKeyFor none (extractJobId (String.mk (s2 ++ ['/'])))) := by
  refine ⟨extractJobId_last_segment, extractJobId_trailing_slash, by decide,
    extractJobId_no_slash, ?_⟩
  intro s1 s2
  rw [extractJobId_trailing_slash s1, extractJobId_trailing_slash s2]

/-- Witness for C10 at a concrete URL with a non-empty last segment. -/
theorem extractJobId_total_spec_witness :
    ('/' ∉ (['a', 'b', 'c'] : List Char) ∧ (['a', 'b', 'c'] : List Char) ≠ [])
    ∧ extractJobId (String.mk (['j', 'o', 'b', 's'] ++ '/' :: ['a', 'b', 'c']))
        = String.mk ['a', 'b', 'c'] :=
  ⟨⟨by decide, by decide⟩,
   extractJobId_total_spec.1 ['j', 'o', 'b', 's'] ['a', 'b', 'c'] (by decide) (by decide)⟩

/-- A generation-cache state with no entries and no completion calls. -/
def emptyGenState : GenState :=
  { msgCache := fun _ => none, aiCalls := 0 }

/-- The constant completion oracle whose raw output is exactly the site
brand, which the post-processing chain cleans to the empty string. -/
def emptyCleanOracle : String → String := fun _ => "HireJobs"

set_option maxRecDepth 8000

/-- C6 counterexample: the source's cache-hit test is JavaScript
truthiness (`if (cachedMessage)`), so a cached empty string is a miss.
With a completion output whose cleaned form is empty — here the literal
site brand, stripped to `""` — two calls of `generateReferralMessage`
with identical title, company and description under the same user scope
invoke the completion capability twice, refuting "exactly once". -/
theorem generation_cache_second_completion_counterexample :
    cleanGeneratedText (emptyCleanOracle
        (createPrompt "Dev" "Acme" "A long description" "tpl")) = ""
    ∧ (generateReferralMessage emptyCleanOracle (some "gk") "tpl" 0 "Dev" "Acme"
        "A long description" (some "u1") emptyGenState).2.aiCalls = 1
    ∧ (generateReferralMessage emptyCleanOracle (some "gk") "tpl" 1 "Dev" "Acme"
        "A long description" (some "u1")
        (generateReferralMessage emptyCleanOracle (some "gk") "tpl" 0 "Dev" "Acme"
          "A long description" (some "u1") emptyGenState).2).2.aiCalls = 2 := by
  refine ⟨by decide, by decide, by decide⟩

/-- C6 as amended: calling `generateReferralMessage` twice with identical
job title, company and description under the same user scope invokes the
text-completion capability exactly once, provided the cleaned generated
text is non-empty (the truthiness hit-test of the source treats a cached
empty string as a miss and would regenerate). The first call — finding no
truthy entry under the generation cache key built from the user scope, the
lowercased trimmed title and company, and the hash of the first 1000
description characters — completes the prompt, cleans the output, caches
it, and returns it; the second call (within the cache TTL) returns the
identical cached cleaned text without a completion call. -/
theorem generation_cache_single_completion (oracle : String → String)
    (apiKey tpl : String) (t1 t2 : Nat) (title company desc : String)
    (uid : Option String) (st0 : GenState)
    (hmiss : (msgCacheGet t1 st0
        (generateCacheKey uid title company (hashString (jsSlice0 1000 desc)))).getD ""
        = "")
    (hclean : cleanGeneratedText (oracle (createPrompt title company desc tpl)) ≠ "")
    (httl : t2 ≤ t1 + CACHE_TTL_SECONDS * 1000) :
    (generateReferralMessage oracle (some apiKey) tpl t1 title company desc uid st0).1
        = .ok (cleanGeneratedText (oracle (createPrompt title company desc tpl)))
    ∧ (generateReferralMessage oracle (some apiKey) tpl t1 title company desc uid st0).2.aiCalls
        = st0.aiCalls + 1
    ∧ (generateReferralMessage oracle (some apiKey) tpl t2 title company desc uid
        (generateReferralMessage oracle (some apiKey) tpl t1 title company desc uid st0).2).1
        = (generateReferralMessage oracle (some apiKey) tpl t1 title company desc uid st0).1
    ∧ (generateReferralMessage oracle (some apiKey) tpl t2 title company desc uid
        (generateReferralMessage oracle (some apiKey) tpl t1 title company desc uid st0).2).2.aiCalls
        = (generateReferralMessage oracle (some apiKey) tpl t1 title company desc uid st0).2.aiCalls := by
  have hkey :
      msgCacheGet t2
        { msgCache := fun q =>
            if q = generateCacheKey uid title company (hashString (jsSlice0 1000 desc)) then
              some (cleanGeneratedText (oracle (createPrompt title company desc tpl)),
                t1 + CACHE_TTL_SECONDS * 1000)
            else st0.msgCache q,
          aiCalls := st0.aiCalls + 1 }
        (generateCacheKey uid title company (hashString (jsSlice0 1000 desc)))
        = some (cleanGeneratedText (oracle (createPrompt title company desc tpl))) := by
    simp [msgCacheGet, Nat.not_lt.mpr httl]
  refine ⟨?_, ?_, ?_, ?_⟩ <;>
    simp [generateReferralMessage, hmiss, hkey, hclean]

/-- Witness for the amended C6 from the empty generation-cache state, with
a completion output that cleans to a non-empty text. -/
theorem generation_cache_single_completion_witness :
    ((msgCacheGet 0 emptyGenState
        (generateCacheKey (some "u1") "Dev" "Acme"
          (hashString (jsSlice0 1000 "A long description")))).getD "" = ""
      ∧ cleanGeneratedText ((fun _ => "raw output")
          (createPrompt "Dev" "Acme" "A long description" "tpl")) ≠ ""
      ∧ 1 ≤ 0 + CACHE_TTL_SECONDS * 1000)
    ∧ ((generateReferralMessage (fun _ => "raw output") (some "gk") "tpl" 0 "Dev" "Acme"
          "A long description" (some "u1") emptyGenState).1
        = .ok (cleanGeneratedText ((fun _ => "raw output")
            (createPrompt "Dev" "Acme" "A long description" "tpl")))
       ∧ (generateReferralMessage (fun _ => "raw output") (some "gk") "tpl" 0 "Dev" "Acme"
            "A long description" (some "u1") emptyGenState).2.aiCalls
          = emptyGenState.aiCalls + 1
       ∧ (generateReferralMessage (fun _ => "raw output") (some "gk") "tpl" 1 "Dev" "Acme"
            "A long description" (some "u1")
            (generateReferralMessage (fun _ => "raw output") (some "gk") "tpl" 0 "Dev" "Acme"
              "A long description" (some "u1") emptyGenState).2).1
          = (generateReferralMessage (fun _ => "raw output") (some "gk") "tpl" 0 "Dev" "Acme"
              "A long description" (some "u1") emptyGenState).1
       ∧ (generateReferralMessage (fun _ => "raw output") (some "gk") "tpl" 1 "Dev" "Acme"
            "A long description" (some "u1")
            (generateReferralMessage (fun _ => "raw output") (some "gk") "tpl" 0 "Dev" "Acme"
              "A long description" (some "u1") emptyGenState).2).2.aiCalls
          = (generateReferralMessage (fun _ => "raw output") (some "gk") "tpl" 0 "Dev" "Acme"
              "A long description" (some "u1") emptyGenState).2.aiCalls) :=
  ⟨⟨rfl, by decide, by decide⟩,
   generation_cache_single_completion (fun _ => "raw output") "gk" "tpl" 0 1 "Dev" "Acme"
     "A long description" (some "u1") emptyGenState rfl (by decide) (by decide)⟩

/-- A concrete completion attempt for the C9 witness: the first model name
fails with a "not found" class error, every other model succeeds. -/
def attemptOnlySecond : String → Except String String :=
  fun m => if m = "gemini-1.5-flash" then .error "404 Not Found" else .ok ("ok:" ++ m)

/-- C9: the model-fallback loop of `generateReferenceMessage` accepts the
first model in the prioritized list that does not fail with a "model not
found" class of error: models failing with not-found errors are skipped
and the next one is tried, while any other error (invalid credential,
quota) from a model stops the iteration and is surfaced immediately — in
particular an immediate non-not-found error from the first model of
`referenceModels` is the overall result, with no further model tried. -/
theorem model_fallback_first_usable (attempt : String → Except String String) :
    (∀ pre : List String, ∀ m : String, ∀ rest : List String,
      ∀ lastErr : Option String, ∀ t : String,
        (∀ p ∈ pre, ∃ e, attempt p = .error e ∧ isModelNotFoundError e = true) →
        attempt m = .ok t →
        tryModelsAux attempt (pre ++ m :: rest) lastErr = .ok t)
    ∧ (∀ m : String, ∀ rest : List String, ∀ lastErr : Option String, ∀ e : String,
        attempt m = .error e → isModelNotFoundError e = false →
        tryModelsAux attempt (m :: rest) lastErr = .error e)
    ∧ (∀ e : String, attempt "gemini-1.5-flash" = .error e →
        isModelNotFoundError e = false →
        generateReferenceMessageCore attempt = .error e) := by
  have hstop : ∀ m : String, ∀ rest : List String, ∀ lastErr : Option String, ∀ e : String,
      attempt m = .error e → isModelNotFoundError e = false →
      tryModelsAux attempt (m :: rest) lastErr = .error e := by
    intro m rest lastErr e herr hnf
    simp [tryModelsAux, herr, hnf]
  refine ⟨?_, hstop, ?_⟩
  · intro pre
    induction pre with
    | nil =>
      intro m rest lastErr t hskip hok
      simp [tryModelsAux, hok]
    | cons p ps ih =>
      intro m rest lastErr t hskip hok
      obtain ⟨e, herr, hnf⟩ := hskip p (List.mem_cons_self p ps)
      have hrest : ∀ q ∈ ps, ∃ e, attempt q = .error e ∧ isModelNotFoundError e = true :=
        fun q hq => hskip q (List.mem_cons_of_mem p hq)
      simp only [List.cons_append, tryModelsAux, herr, hnf, if_pos]
      exact ih m rest (some e) t hrest hok
  · intro e herr hnf
    exact hstop "gemini-1.5-flash" ["gemini-1.0-pro", "gemini-pro"] none e herr hnf

/-- Witness for C9: with the first model failing not-found and the second
succeeding, the loop over the actual model list returns the second model's
output. -/
theorem model_fallback_first_usable_witness :
    ((∀ p ∈ ["gemini-1.5-flash"], ∃ e, attemptOnlySecond p = .error e
        ∧ isModelNotFoundError e = true)
      ∧ attemptOnlySecond "gemini-1.0-pro" = .ok "ok:gemini-1.0-pro")
    ∧ tryModelsAux attemptOnlySecond
        (["gemini-1.5-flash"] ++ "gemini-1.0-pro" :: ["gemini-pro"]) none
        = .ok "ok:gemini-1.0-pro" := by
  refine ⟨⟨?_, rfl⟩, ?_⟩
  · intro p hp
    simp only [List.mem_singleton] at hp
    subst hp
    exact ⟨"404 Not Found", rfl, by decide⟩
  · exact (model_fallback_first_usable attemptOnlySecond).1 ["gemini-1.5-flash"]
      "gemini-1.0-pro" ["gemini-pro"] none "ok:gemini-1.0-pro"
      (by
        intro p hp
        simp only [List.mem_singleton] at hp
        subst hp
        exact ⟨"404 Not Found", rfl, by decide⟩) rfl

/-- C3 counterexample: the fixed priority order claimed is
HiringPattern > StructuredData > MetaTags/DomHeuristic, but in the code
the structured-data candidate is consulted last. With no hiring-pattern
match, a meta-tag title "Platform Engineer" and a structured-data title
"Data Engineer", fusion resolves to the meta-tag candidate, not the
structured-data one (and likewise for the company field), refuting the
claimed order at this input. -/
theorem fusion_priority_counterexample :
    resolveTitle "" "Platform Engineer" "" "Data Engineer" = "Platform Engineer"
    ∧ ("Platform Engineer" : String) ≠ "Data Engineer"
    ∧ resolveCompany "" "Meta Corp" "" "Structured Corp" = "Meta Corp"
    ∧ ("Meta Corp" : String) ≠ "Structured Corp" := by
  refine ⟨by decide, by decide, by decide, by decide⟩

/-- C3 as amended: title and company are resolved by the fixed priority
order HiringPattern > MetaTags > DomHeuristic header/DOM > StructuredData
(structured data last), each candidate accepted only if it clears the
minimum-length filter (title longer than 3, company longer than 2); in
particular, for the hiring-pattern sentence
"Acme Corp is hiring for Backend Engineer | HireJobs" and a conflicting
title-tag candidate "Senior Role - Careers", the hiring pattern wins and
the normalized result is title "Backend Engineer" and company
"Acme Corp". -/
theorem fusion_priority_order (hp m hd sd : String) :
    (hp ≠ "" → hp.length > 3 → resolveTitle hp m hd sd = hp)
    ∧ (¬ (hp ≠ "" ∧ hp.length > 3) → m ≠ "" → m.length > 3 →
        resolveTitle hp m hd sd = m)
    ∧ (¬ (hp ≠ "" ∧ hp.length > 3) → ¬ (m ≠ "" ∧ m.length > 3) →
        hd ≠ "" → hd.length > 3 → resolveTitle hp m hd sd = hd)
    ∧ (¬ (hp ≠ "" ∧ hp.length > 3) → ¬ (m ≠ "" ∧ m.length > 3) →
        ¬ (hd ≠ "" ∧ hd.length > 3) → sd ≠ "" → sd.length > 3 →
        resolveTitle hp m hd sd = sd)
    ∧ (hp ≠ "" → hp.length > 2 → resolveCompany hp m hd sd = hp)
    ∧ (¬ (hp ≠ "" ∧ hp.length > 2) → m ≠ "" → m.length > 2 →
        resolveCompany hp m hd sd = m)
    ∧ parseHiringPatternText "Acme Corp is hiring for Backend Engineer | HireJobs"
        = ("Acme Corp", "Backend Engineer")
    ∧ cleanupTitle (resolveTitle "Backend Engineer" "Senior Role - Careers" "" "")
        = "Backend Engineer"
    ∧ cleanupCompany (resolveCompany "Acme Corp" "" "" "") = "Acme Corp" := by
  refine ⟨?_, ?_, ?_, ?_, ?_, ?_, by decide, by decide, by decide⟩
  · intro h1 h2
    simp [resolveTitle, h1, h2]
  · intro h0 h1 h2
    simp [resolveTitle, h0, h1, h2]
  · intro h0 h0m h1 h2
    simp [resolveTitle, h0, h0m, h1, h2]
  · intro h0 h0m h0h h1 h2
    simp [resolveTitle, h0, h0m, h0h, h1, h2]
  · intro h1 h2
    simp [resolveCompany, h1, h2]
  · intro h0 h1 h2
    simp [resolveCompany, h0, h1, h2]

/-- Witness for the amended C3: the hiring-pattern candidate extracted from
the Acme sentence beats a conflicting qualifying meta-tag candidate. -/
theorem fusion_priority_order_witness :
    (("Backend Engineer" : String) ≠ "" ∧ ("Backend Engineer" : String).length > 3)
    ∧ resolveTitle "Backend Engineer" "Senior Role - Careers" "" "" = "Backend Engineer" :=
  ⟨⟨by decide, by decide⟩,
   (fusion_priority_order "Backend Engineer" "Senior Role - Careers" "" "").1
     (by decide) (by decide)⟩

/-- C2, evaluated at the failing input. The validating parser rejects a
fusion result with a description under 100 characters (and likewise a
title under 3 or a company under 2 characters) with an extraction error,
exactly as the claim demands; but `extractHireJobsData` in
`crawlerService.ts`, at the same merged input in production mode, performs
no such failure: it substitutes the synthetic placeholders
`Position (ID: abc123)` and `Company (ID: abc123)` and a fabricated stub
description, returning them as a successful `JobData` — the code bug the
claim rules out. -/
theorem validation_boundary_bug :
    validateParsedJobData "Backend Engineer" "Acme" "Too short description"
        = .error "Could not extract sufficient job description"
    ∧ validateParsedJobData "SE" "Acme"
        "A description that is clearly long enough to pass the one-hundred-character minimum length requirement."
        = .error "Could not extract valid job title"
    ∧ validateParsedJobData "Backend Engineer" "A"
        "A description that is clearly long enough to pass the one-hundred-character minimum length requirement."
        = .error "Could not extract valid company name"
    ∧ finalizeExtractedJobData "" "" "Too short description" "abc123" false
        = { title := "Position (ID: abc123)",
            company := "Company (ID: abc123)",
            description := "This is a job posting for Position (ID: abc123) at Company (ID: abc123). Unfortunately, detailed job description could not be extracted." } :=
  ⟨rfl, rfl, rfl, by decide⟩

theorem stepEvent_rawContent_pending (s : SysState) (k jid ti co ms : String)
    (uid : Option String) (t : Nat) :
    (stepEvent s (.rawContent k jid ti co ms uid t)).pending = s.pending := by
  simp only [stepEvent]
  cases hc : cacheGet t s.cache k with
  | none => rfl
  | some e => cases e <;> rfl

theorem stepEvent_submit_spawn (s : SysState) (key jid : String) (uid : Option String)
    (t : Nat) (hnone : cacheGet t s.cache key = none) :
    stepEvent s (.submit key jid uid t)
      = { cache := cacheSet t JOB_CACHE_TTL_SECONDS s.cache key (.processing jid t uid),
          pending := fun q => if q = key then true else s.pending q } := by
  simp [stepEvent, submitStep_of_none t s.cache key jid uid hnone]

theorem stepEvent_submit_pending_no_spawn (s : SysState) (key jid : String)
    (uid : Option String) (t : Nat)
    (h : (submitStep t s.cache key jid uid).2 = false) :
    (stepEvent s (.submit key jid uid t)).pending = s.pending := by
  simp [stepEvent, h]

theorem taskWritesPreceded_inv (key : String) :
    ∀ (evts : List CacheEvent) (s : SysState) (everHeld : Prop),
      ValidFrom s evts →
      (s.pending key = true → everHeld ∨ holdsProcessing s key) →
      TaskWritesPreceded key everHeld s evts := by
  intro evts
  induction evts with
  | nil =>
    intro s everHeld _ _
    exact trivial
  | cons e rest ih =>
    intro s everHeld hv hp
    obtain ⟨hok, hvrest⟩ := hv
    constructor
    · intro hterm
      cases e with
      | taskSuccess k jid ti co ms uid t =>
        have hk : k = key := hterm
        subst hk
        exact hp hok
      | taskFailure k jid err uid t =>
        have hk : k = key := hterm
        subst hk
        exact hp hok
      | submit k jid uid t => exact absurd hterm (by simp [terminalWriteFor])
      | rawContent k jid ti co ms uid t => exact absurd hterm (by simp [terminalWriteFor])
      | clearKey k => exact absurd hterm (by simp [terminalWriteFor])
    · apply ih (stepEvent s e) (everHeld ∨ holdsProcessing s key) hvrest
      intro hpend
      cases e with
      | submit k jid uid t =>
        cases hsp : (submitStep t s.cache k jid uid).2 with
        | false =>
          rw [stepEvent_submit_pending_no_spawn s k jid uid t hsp] at hpend
          exact Or.inl (hp hpend)
        | true =>
          have hnone := (submitStep_spawn_iff t s.cache k jid uid).mp hsp
          by_cases hkey : key = k
          · subst hkey
            right
            refine ⟨⟨.processing jid t uid, t + JOB_CACHE_TTL_SECONDS * 1000⟩,
              jid, t, uid, ?_, rfl⟩
            rw [stepEvent_submit_spawn s key jid uid t hnone]
            simp [cacheSet]
          · rw [stepEvent_submit_spawn s k jid uid t hnone] at hpend
            simp only [if_neg hkey] at hpend
            exact Or.inl (hp hpend)
      | taskSuccess k jid ti co ms uid t =>
        by_cases hkey : key = k
        · subst hkey
          simp [stepEvent] at hpend
        · simp only [stepEvent, if_neg hkey] at hpend
          exact Or.inl (hp hpend)
      | taskFailure k jid err uid t =>
        by_cases hkey : key = k
        · subst hkey
          simp [stepEvent] at hpend
        · simp only [stepEvent, if_neg hkey] at hpend
          exact Or.inl (hp hpend)
      | rawContent k jid ti co ms uid t =>
        rw [stepEvent_rawContent_pending] at hpend
        exact Or.inl (hp hpend)
      | clearKey k =>
        simp only [stepEvent] at hpend
        exact Or.inl (hp hpend)

/-- The single-event trace in which the raw-content endpoint completes
directly against an empty cache. -/
def rawContentTrace : List CacheEvent :=
  [.rawContent "content:777" "content_777" "Dev" "Acme" "msg" none 0]

/-- C8 counterexample: running the raw-content completion of
`processRawJobContent` from the empty cache is a valid trace that leaves a
terminal (completed) entry for its key although no state — neither the
initial one nor the final one — ever held a `processing` entry for that
key, refuting the claim that no operation writes a terminal entry for a
key that did not first hold a `processing` entry. -/
theorem terminal_without_processing_counterexample :
    ValidFrom initialState rawContentTrace
    ∧ (runEvents initialState rawContentTrace).cache "content:777"
        = some ⟨.success "content_777" "Dev" "Acme" "msg" 0 none, 3600000⟩
    ∧ isCompleted (JobCacheEntry.success "content_777" "Dev" "Acme" "msg" 0 none) = true
    ∧ ¬ holdsProcessing initialState "content:777"
    ∧ ¬ holdsProcessing (runEvents initialState rawContentTrace) "content:777" := by
  refine ⟨⟨trivial, trivial⟩, rfl, rfl, ?_, ?_⟩
  · rintro ⟨slot, jid, sa, uid, hc, he⟩
    simp [initialState, emptyCache] at hc
  · rintro ⟨slot, jid, sa, uid, hc, he⟩
    have hrun : (runEvents initialState rawContentTrace).cache "content:777"
        = some ⟨.success "content_777" "Dev" "Acme" "msg" 0 none, 3600000⟩ := rfl
    rw [hrun] at hc
    cases hc
    simp at he

/-- C8 as amended: in the URL-submission flow the lifecycle does follow
empty, then `processing`, then a terminal entry: in every valid trace,
each background-task terminal write for a key is preceded by a state in
which the cache held a `processing` entry for that key, and the `submit`
phase never overwrites an existing live entry — on a completed (terminal)
entry within TTL it leaves the cache unchanged and spawns nothing, so a
terminal entry is replaced only after it has expired or been evicted
(by TTL, staleness, or an explicit cache clear) and a new `submit` has
run. The raw-content endpoint is the exception the counterexample
exhibits: it writes its terminal entry directly, with no `processing`
phase. -/
theorem job_cache_lifecycle (evts : List CacheEvent) (key : String)
    (now : Nat) (cache : Cache) (jobId : String) (uid : Option String)
    (e : JobCacheEntry) :
    (ValidFrom initialState evts → TaskWritesPreceded key False initialState evts)
    ∧ (cacheGet now cache key = some e → isCompleted e = true →
        (submitStep now cache key jobId uid).1 = cache
        ∧ (submitStep now cache key jobId uid).2 = false) := by
  constructor
  · intro hv
    apply taskWritesPreceded_inv key evts initialState False hv
    intro hpend
    simp [initialState] at hpend
  · intro hget hcomp
    rw [submitStep_of_completed now cache key jobId uid e hget hcomp]
    exact ⟨rfl, rfl⟩

/-- The two-event trace submit-then-success used to witness the amended
C8. -/
def submitThenSuccessTrace : List CacheEvent :=
  [.submit "job:w8" "w8" none 0,
   .taskSuccess "job:w8" "w8" "Dev" "Acme" "msg" none 50]

/-- Witness for the amended C8: the submit-then-success trace is valid
from the empty cache, and a completed entry deduplicates a later submit. -/
theorem job_cache_lifecycle_witness :
    (ValidFrom initialState submitThenSuccessTrace
      ∧ cacheGet 100 (cacheSet 50 3600 emptyCache "job:w8"
          (.success "w8" "Dev" "Acme" "msg" 50 none)) "job:w8"
          = some (.success "w8" "Dev" "Acme" "msg" 50 none)
      ∧ isCompleted (JobCacheEntry.success "w8" "Dev" "Acme" "msg" 50 none) = true)
    ∧ (TaskWritesPreceded "job:w8" False initialState submitThenSuccessTrace
       ∧ ((submitStep 100 (cacheSet 50 3600 emptyCache "job:w8"
            (.success "w8" "Dev" "Acme" "msg" 50 none)) "job:w8" "w8" none).1
          = cacheSet 50 3600 emptyCache "job:w8" (.success "w8" "Dev" "Acme" "msg" 50 none)
          ∧ (submitStep 100 (cacheSet 50 3600 emptyCache "job:w8"
              (.success "w8" "Dev" "Acme" "msg" 50 none)) "job:w8" "w8" none).2 = false)) :=
  ⟨⟨⟨trivial,
      (by decide :
        (stepEvent initialState (CacheEvent.submit "job:w8" "w8" none 0)).pending "job:w8"
          = true),
      trivial⟩, by decide, rfl⟩,
   ⟨(job_cache_lifecycle submitThenSuccessTrace "job:w8" 100
        (cacheSet 50 3600 emptyCache "job:w8" (.success "w8" "Dev" "Acme" "msg" 50 none))
        "w8" none (.success "w8" "Dev" "Acme" "msg" 50 none)).1
      ⟨trivial,
       (by decide :
         (stepEvent initialState (CacheEvent.submit "job:w8" "w8" none 0)).pending "job:w8"
           = true),
       trivial⟩,
    (job_cache_lifecycle submitThenSuccessTrace "job:w8" 100
        (cacheSet 50 3600 emptyCache "job:w8" (.success "w8" "Dev" "Acme" "msg" 50 none))
        "w8" none (.success "w8" "Dev" "Acme" "msg" 50 none)).2
      (by decide) rfl⟩⟩

end JobRefMe
